import Mathlib

/-!
Verification development for the Automaton Auditor ("Digital Courtroom")
repository. The repository orchestrates a LangGraph pipeline: detective
nodes collect `Evidence` in parallel, an `EvidenceAggregator` merges it
into shared state via declared reducers, three judge personas render
`JudicialOpinion` records per rubric criterion, and a deterministic
ChiefJustice synthesis engine resolves them into a `CriterionResult`.

The Python core (src/state.py, src/graph.py, src/nodes/judges.py,
src/nodes/justice.py, src/llm.py) is not present in the source tree;
only its declarations are (README.md final-submission table, ENV_SETUP.md,
specs/002-phase1-production-env/data-model.md, the functional spec
section 5.1 Deliberation Protocol, and phase3/phase4 phase specs).
Definitions for those parts are therefore modelled from the spec, as
marked in their doc comments. The frontend (frontend/app/page.tsx) is
present and is embedded directly.
-/

/-- Evidence record produced by a detective about one forensic goal.
Fields follow specs/002-phase1-production-env/data-model.md section 1
(goal non-empty, found flag, optional content, location, rationale,
confidence in [0,1] advisory). The Python float confidence is modelled
as a rational. -/
structure Evidence where
  goal : String
  found : Bool
  content : Option String
  location : String
  rationale : String
  confidence : Rat
deriving DecidableEq, Repr

/-- Judge persona, the fixed three-element set from data-model.md
section 2: Literal["Prosecutor", "Defense", "TechLead"]. -/
inductive Persona where
  | prosecutor
  | defense
  | techLead
deriving DecidableEq, Repr

/-- Display name of a persona, as it appears in rendered reports. -/
def personaName : Persona → String
  | .prosecutor => "Prosecutor"
  | .defense => "Defense"
  | .techLead => "TechLead"

/-- Judge output record, following data-model.md section 2:
judge persona, criterion id, score (validated 1..5 by the schema),
argument, cited evidence references. -/
structure JudicialOpinion where
  judge : Persona
  criterion_id : String
  score : Nat
  argument : String
  cited_evidence : List String
deriving DecidableEq, Repr

/-- Rubric dimension as parsed from rubric.json by the frontend
(frontend/app/page.tsx type RubricDim): all fields optional. -/
structure RubricDim where
  id : Option String
  name : Option String
  target_artifact : Option String
deriving DecidableEq, Repr

/-- Evidence map threaded through the graph state: keyed by dimension or
goal id, values are lists of Evidence (data-model.md section 4,
`evidences : Dict[str, List[Evidence]]`). Modelled as an association
list in insertion order, matching Python dict iteration order; Python
dict equality is key-lookup equality, which the lemmas below use. -/
abbrev EvMap := List (String × List Evidence)

/-- Lookup in an evidence map, first matching key wins (Python dicts have
unique keys, so at most one entry per key ever exists). -/
def lookupEv : EvMap → String → Option (List Evidence)
  | [], _ => none
  | e :: m, k => if e.1 = k then some e.2 else lookupEv m k

/-- Rubric criterion identity handed to the synthesis engine:
an entry of the criteria catalog (id and display name). -/
structure Criterion where
  id : String
  name : String
deriving DecidableEq, Repr

/-- Synthesized verdict for one criterion, following data-model.md
section 3: dimension id and name, final score, the judge opinions,
optional dissent summary, remediation text. -/
structure CriterionResult where
  dimension_id : String
  dimension_name : String
  final_score : Nat
  judge_opinions : List JudicialOpinion
  dissent_summary : Option String
  remediation : String
deriving DecidableEq, Repr

/-! ## Model configuration (claim C10)

src/llm.py is not in the source tree. ENV_SETUP.md (Ollama
Configuration) declares: "The model is hardcoded to llama3.2:3b in the
code. Environment variables like OLLAMA_MODEL or OLLAMA_VISION_MODEL
are ignored", while the README Setup section documents OLLAMA_MODEL
with default qwen2.5:7b as the way to configure the model. -/

/-- Environment variables relevant to Ollama model selection. -/
structure OllamaEnv where
  ollamaModel : Option String
  ollamaVisionModel : Option String
  ollamaBaseUrl : Option String
deriving DecidableEq, Repr

/-- Modelled from the spec: src/llm.py model selection for the judge
nodes is missing from the tree; ENV_SETUP.md declares the model name
hardcoded to llama3.2:3b with OLLAMA_MODEL ignored. -/
def judgeModelName (_env : OllamaEnv) : String := "llama3.2:3b"

/-- Modelled from the spec: src/llm.py model selection for the vision
node is missing from the tree; ENV_SETUP.md declares the model name
hardcoded to llama3.2:3b with OLLAMA_VISION_MODEL ignored. -/
def visionModelName (_env : OllamaEnv) : String := "llama3.2:3b"

/-- Model name the README Setup section documents: OLLAMA_MODEL when
set, defaulting to qwen2.5:7b. This follows the words of the README,
for comparison with the hardcoded behavior declared in ENV_SETUP.md. -/
def readmeDocumentedModel (env : OllamaEnv) : String :=
  env.ollamaModel.getD "qwen2.5:7b"

/-! ## Frontend run submission (claim C8)

Embedded from frontend/app/page.tsx, runAudit (first page variant,
lines 31-70): trims the URL, rejects an empty URL, rejects unparsable
or empty rubric JSON, and only then issues the POST /api/run request
that starts the Graph Engine. -/

/-- Audit type selected in the UI: repo mode sends the URL as repo_url,
doc mode sends it as pdf_path (page.tsx lines 56-59). -/
inductive AuditMode where
  | repo
  | doc
deriving DecidableEq, Repr

/-- Body of the POST /api/run request built by runAudit. -/
structure RunRequest where
  repo_url : String
  pdf_path : String
  rubric_dimensions : List RubricDim
deriving DecidableEq, Repr

/-- Outcome of the runAudit handler: either a client-side validation
error (setError, early return, no request issued) or the request body
handed to fetch. -/
inductive RunOutcome where
  | validationError (msg : String)
  | request (req : RunRequest)
deriving DecidableEq, Repr

/-- Whitespace characters stripped by JS String.prototype.trim
(restricted to the ASCII whitespace actually relevant to URLs). -/
def isJsWhitespace (c : Char) : Bool :=
  c = ' ' || c = '\t' || c = '\n' || c = '\r'

/-- Computable model of JS String.prototype.trim: drop leading and
trailing whitespace characters. -/
def jsTrim (s : String) : String :=
  String.mk (((s.data.dropWhile isJsWhitespace).reverse.dropWhile
    isJsWhitespace).reverse)

/-- Embedded from frontend/app/page.tsx runAudit: the rubric argument is
the result of JSON.parse on the textarea (none when parsing threw, some
dims when it yielded an array of dimensions). JS String.prototype.trim
is modelled by jsTrim. -/
def runAudit (mode : AuditMode) (url : String) (rubric : Option (List RubricDim)) :
    RunOutcome :=
  let trimmedUrl := jsTrim url
  if trimmedUrl.isEmpty then
    .validationError "Enter a Repo URL or Doc URL."
  else
    match rubric with
    | none => .validationError "Rubric must be valid JSON (array of dimensions or object with a dimensions array)."
    | some dims =>
      if dims.isEmpty then
        .validationError "Rubric must contain at least one dimension."
      else
        .request { repo_url := if mode = .repo then trimmedUrl else ""
                   pdf_path := if mode = .doc then trimmedUrl else ""
                   rubric_dimensions := dims }

/-! ## Graph wiring around the aggregator (claim C4)

Modelled from the spec: src/graph.py is missing from the tree. The
wiring is declared in specs/phase3-judicial-layer/spec.md lines 13-16
("EvidenceAggregator ... conditionally routes: proceed to defense, skip
to END. Also fans out directly to prosecutor and tech_lead") and in the
README final-submission table (conditional (proceed to defense | skip
to END) + direct edges to prosecutor, tech_lead). -/

/-- Nodes of the declared audit graph. -/
inductive GraphNode where
  | start
  | entry
  | docGate
  | repoGate
  | visionGate
  | docAnalyst
  | repoInvestigator
  | visionInspector
  | evidenceAggregator
  | defense
  | prosecutor
  | techLead
  | chiefJustice
  | finish
deriving DecidableEq, Repr

/-- Unconditional edges of the declared graph (README topology line and
phase3 spec Graph construction). The aggregator has direct edges to
prosecutor and techLead; defense is reached only through the
conditional edge. -/
def directEdges : List (GraphNode × GraphNode) :=
  [(.start, .entry),
   (.entry, .docGate), (.entry, .repoGate), (.entry, .visionGate),
   (.docAnalyst, .evidenceAggregator),
   (.repoInvestigator, .evidenceAggregator),
   (.visionInspector, .evidenceAggregator),
   (.evidenceAggregator, .prosecutor), (.evidenceAggregator, .techLead),
   (.defense, .chiefJustice), (.prosecutor, .chiefJustice),
   (.techLead, .chiefJustice),
   (.chiefJustice, .finish)]

/-- Routing decision of the aggregator conditional edge. -/
inductive AggRoute where
  | proceed
  | skip
deriving DecidableEq, Repr

/-- Target of the aggregator conditional edge: proceed goes to defense,
skip goes to END (phase3 spec). -/
def aggregatorRouting : AggRoute → GraphNode
  | .proceed => .defense
  | .skip => .finish

/-- True when no evidence was collected at all (every key maps to an
empty list), the condition under which the aggregator routing selects
skip. -/
def noEvidence (ev : EvMap) : Bool := ev.all (fun e => e.2.isEmpty)

/-- Modelled from the spec: the aggregator routing function in the
missing src/graph.py routes skip when no evidence was collected and
proceed otherwise. -/
def aggregatorRoute (ev : EvMap) : AggRoute :=
  if noEvidence ev then .skip else .proceed

/-- Successors dispatched when the aggregator completes: the target of
the conditional edge plus every unconditional direct successor, which
fire regardless of the routing decision. -/
def aggregatorSuccessors (r : AggRoute) : List GraphNode :=
  aggregatorRouting r ::
    directEdges.filterMap
      (fun e => if e.1 = .evidenceAggregator then some e.2 else none)

/-- Evaluator nodes actually dispatched for a given routing decision. -/
def evaluatorsInvoked (r : AggRoute) : List GraphNode :=
  [GraphNode.prosecutor, GraphNode.defense, GraphNode.techLead].filter
    (fun n => (aggregatorSuccessors r).contains n)

/-! ## Frontend evidence split (claim C9)

Embedded from frontend/app/page.tsx (second page variant),
splitEvidencesByArtifact: builds the id sets of rubric dimensions whose
target_artifact is github_repo (repoIds) respectively pdf_report or
pdf_images (reportIds) - JS .filter(Boolean) drops missing and
empty-string ids - then walks the evidence entries in order, sending a
key to the repo output when it is in repoIds, else to the report output
when it is in reportIds, else dropping it. The if/else-if loop over
Object.entries preserves entry order, so it is embedded as two filters. -/

/-- Ids of rubric dimensions targeting github_repo; JS .filter(Boolean)
on strings keeps only present, non-empty ids. -/
def repoIds (rubric : List RubricDim) : List String :=
  ((rubric.filter (fun d => d.target_artifact == some "github_repo")).filterMap
      (fun d => d.id)).filter (fun s => !(s == ""))

/-- Ids of rubric dimensions targeting pdf_report or pdf_images, with
the same .filter(Boolean) treatment. -/
def reportIds (rubric : List RubricDim) : List String :=
  ((rubric.filter (fun d =>
      d.target_artifact == some "pdf_report" ||
        d.target_artifact == some "pdf_images")).filterMap
      (fun d => d.id)).filter (fun s => !(s == ""))

/-- Embedded from frontend/app/page.tsx splitEvidencesByArtifact:
repo output first, report output second. -/
def splitEvidencesByArtifact (evidences : EvMap) (rubric : List RubricDim) :
    EvMap × EvMap :=
  (evidences.filter (fun e => (repoIds rubric).contains e.1),
   evidences.filter (fun e =>
     !(repoIds rubric).contains e.1 && (reportIds rubric).contains e.1))

/-- A key is tagged for the repository artifact: some rubric dimension
carries this id with target_artifact github_repo. -/
def taggedRepo (rubric : List RubricDim) (k : String) : Prop :=
  ∃ d ∈ rubric, d.id = some k ∧ d.target_artifact = some "github_repo"

/-- A key is tagged for the report artifact: some rubric dimension
carries this id with target_artifact pdf_report or pdf_images. -/
def taggedReport (rubric : List RubricDim) (k : String) : Prop :=
  ∃ d ∈ rubric, d.id = some k ∧
    (d.target_artifact = some "pdf_report" ∨
      d.target_artifact = some "pdf_images")

/-- Claim C9 as stated: the split partitions the keys, a key tagged
github_repo lands in the repo output, a key tagged pdf_report or
pdf_images (and not github_repo, repo taking precedence) lands in the
report output, and untagged keys are dropped from both. -/
def splitPartitionClaim (evidences : EvMap) (rubric : List RubricDim) : Prop :=
  (∀ k, k ∈ (splitEvidencesByArtifact evidences rubric).1.map Prod.fst →
      k ∉ (splitEvidencesByArtifact evidences rubric).2.map Prod.fst)
  ∧ (∀ e ∈ evidences, taggedRepo rubric e.1 →
      e ∈ (splitEvidencesByArtifact evidences rubric).1)
  ∧ (∀ e ∈ evidences, ¬ taggedRepo rubric e.1 → taggedReport rubric e.1 →
      e ∈ (splitEvidencesByArtifact evidences rubric).2)
  ∧ (∀ e ∈ evidences, ¬ taggedRepo rubric e.1 → ¬ taggedReport rubric e.1 →
      e ∉ (splitEvidencesByArtifact evidences rubric).1 ∧
        e ∉ (splitEvidencesByArtifact evidences rubric).2)

/-- A key is effectively repo-tagged for the code: tagged github_repo
with a non-empty id, which is what survives .filter(Boolean). -/
def taggedRepoNE (rubric : List RubricDim) (k : String) : Prop :=
  k ≠ "" ∧ taggedRepo rubric k

/-- A key is effectively report-tagged for the code: tagged pdf_report
or pdf_images with a non-empty id. -/
def taggedReportNE (rubric : List RubricDim) (k : String) : Prop :=
  k ≠ "" ∧ taggedReport rubric k

/-! ## Synthesis engine (claims C1, C2, C5)

Modelled from the spec: src/nodes/justice.py (ChiefJusticeNode) is
missing from the tree. Its deterministic rules are declared in the
functional spec section 5.1 (Deliberation Protocol: Rule of Security,
Rule of Evidence, Rule of Functionality, Dissent Requirement when
variance exceeds 2), the phase4 spec (security override, fact
supremacy, functionality weight, dissent when variance > 2, no LLM for
synthesis) and the README final-submission table. -/

/-- Spread of a list of scores: maximum minus minimum, 0 for the empty
list. -/
def scoreSpread (l : List Nat) : Nat :=
  match l with
  | [] => 0
  | x :: xs => (xs.foldl Nat.max x) - (xs.foldl Nat.min x)

/-- Goals counted as safety or security findings by the security rule. -/
def isSecurityGoal (g : String) : Bool := g == "safe_tool_engineering"

/-- An opinion cites evidence of a confirmed security defect: one of its
citations resolves to a found Evidence item on the security goal. -/
def citesConfirmedSecurityDefect (ev : EvMap) (op : JudicialOpinion) : Bool :=
  op.cited_evidence.any (fun ref =>
    ev.any (fun entry => entry.2.any (fun e =>
      e.location == ref && e.found && isSecurityGoal e.goal)))

/-- Rule of Security trigger: some prosecutor opinion cites a confirmed
security defect. -/
def securityOverrideApplies (ev : EvMap) (ops : List JudicialOpinion) : Bool :=
  ops.any (fun op =>
    op.judge == Persona.prosecutor && citesConfirmedSecurityDefect ev op)

/-- Rule of Evidence trigger for one opinion: a citation resolves to an
Evidence item with found = false, contradicting the claim it credits. -/
def contradictedByEvidence (ev : EvMap) (op : JudicialOpinion) : Bool :=
  op.cited_evidence.any (fun ref =>
    ev.any (fun entry => entry.2.any (fun e =>
      e.location == ref && !e.found)))

/-- Modelled from the spec: the Rule of Evidence discounts a
contradicted opinion toward the evidence-supported value (capped at 2);
an uncontradicted opinion keeps its raw score. -/
def adjustedScore (ev : EvMap) (op : JudicialOpinion) : Nat :=
  if contradictedByEvidence ev op then Nat.min op.score 2 else op.score

/-- Criteria concerning structural or architectural soundness, where the
Rule of Functionality gives the pragmatic persona the highest weight. -/
def isArchitectureCriterion (c : Criterion) : Bool :=
  c.id == "graph_orchestration"

/-- A tech-lead opinion consistent with the evidence (not contradicted). -/
def consistentTechLead (ev : EvMap) (op : JudicialOpinion) : Bool :=
  op.judge == Persona.techLead && !contradictedByEvidence ev op

/-- Rule of Functionality trigger: architecture criterion and some
tech-lead opinion consistent with the evidence. -/
def functionalityApplies (c : Criterion) (ev : EvMap)
    (ops : List JudicialOpinion) : Bool :=
  isArchitectureCriterion c && ops.any (consistentTechLead ev)

/-- Insert a score into a sorted list of scores. -/
def insertSorted (x : Nat) : List Nat → List Nat
  | [] => [x]
  | y :: ys => if x ≤ y then x :: y :: ys else y :: insertSorted x ys

/-- Sort a list of scores ascending (insertion sort). -/
def sortScores (l : List Nat) : List Nat := l.foldr insertSorted []

/-- Median of a score list rounded to the nearest integer (ties round
up), the central tendency used by the default rule; the neutral score 3
for an empty panel, which the engine must tolerate. -/
def roundedMedian (l : List Nat) : Nat :=
  let s := sortScores l
  if s.length = 0 then 3
  else if s.length % 2 = 1 then s.getD (s.length / 2) 3
  else (s.getD (s.length / 2 - 1) 3 + s.getD (s.length / 2) 3 + 1) / 2

/-- Enumeration of the panel scores by persona, the plain dissent text
shape appearing in the rendered reports. -/
def scoreEnumeration (ops : List JudicialOpinion) : String :=
  String.intercalate "; "
    (ops.map (fun o => personaName o.judge ++ " " ++ toString o.score))

/-- Modelled from the spec and the recorded program output: the dissent
rule of the missing ChiefJusticeNode. data-model.md section 3 declares
dissent_summary required when variance > 2 (a one-directional
requirement only), and the rendered reports of the program itself
(src/audit/audit_report.md and the peer-received report) also carry
dissent summaries at spread 2: a Rule of Security line
(judicial_nuance), a Rule of Functionality line (graph_orchestration),
and plain score enumerations (safe_tool_engineering). The summary is
therefore set when the variance rule, a synthesis rule, or mere
disagreement among the judges applies; it is guaranteed present when
the spread exceeds 2, but can also be present below that threshold. -/
def dissentSummary (c : Criterion) (ops : List JudicialOpinion)
    (ev : EvMap) : Option String :=
  if 2 < scoreSpread (ops.map (fun o => o.score)) then
    some ("Score variance > 2; re-evaluation applied. " ++
      scoreEnumeration ops)
  else if securityOverrideApplies ev ops then
    some "Rule of Security: Prosecutor identified security concern; score capped at 3."
  else if functionalityApplies c ev ops then
    some "Rule of Functionality: Tech Lead confirms modular architecture; highest weight applied."
  else if 0 < scoreSpread (ops.map (fun o => o.score)) then
    some (scoreEnumeration ops)
  else none

/-- Modelled from the spec: weighted score when the Rule of
Functionality applies, the consistent tech-lead opinion carrying the
highest weight. -/
def functionalityScore (ev : EvMap) (ops : List JudicialOpinion) : Nat :=
  match ops.find? (consistentTechLead ev) with
  | some op => adjustedScore ev op
  | none => roundedMedian (ops.map (adjustedScore ev))

/-- Lowest-scoring opinion of the panel, used for remediation. -/
def lowestOpinion : List JudicialOpinion → Option JudicialOpinion
  | [] => none
  | op :: ops =>
    match lowestOpinion ops with
    | none => some op
    | some b => if b.score < op.score then some b else some op

/-- Remediation text derived from the lowest-scoring argument. -/
def remediationText (ops : List JudicialOpinion) : String :=
  match lowestOpinion ops with
  | some op => "Address the lowest-scoring concern: " ++ op.argument
  | none => "No opinions were produced for this criterion."

/-- Modelled from the spec: the synthesize function of the missing
src/nodes/justice.py. Ordered rules: the Rule of Functionality selects
the consistent tech-lead score for architecture criteria, otherwise the
default rule takes the rounded median of the evidence-adjusted scores;
the Rule of Security then caps the result at 3 with highest priority;
the dissent rule fills dissent_summary from the raw score spread. -/
def synthesize (c : Criterion) (ops : List JudicialOpinion) (ev : EvMap) :
    CriterionResult :=
  let base :=
    if functionalityApplies c ev ops then functionalityScore ev ops
    else roundedMedian (ops.map (adjustedScore ev))
  let final :=
    if securityOverrideApplies ev ops then Nat.min base 3 else base
  { dimension_id := c.id
    dimension_name := c.name
    final_score := final
    judge_opinions := ops
    dissent_summary := dissentSummary c ops ev
    remediation := remediationText ops }

/-! ## Structured output validation (claims C6, C7)

Modelled from the spec: src/nodes/judges.py is missing from the tree.
The phase3 spec declares: judges bind the LLM to the JudicialOpinion
schema; on a 400 or parse failure they retry once with a JSON-only
invocation; tasks.md T003 declares the typed placeholder JudicialOpinion
with score 3 issued when no valid opinion can be acquired, and the
self-audit report shows such placeholders rendered as "Parse/LLM error
after retries". -/

/-- Invocation mode of an underlying judgment call: the primary
schema-constrained attempt, or the stricter JSON-only retry mode. -/
inductive InvokeMode where
  | structured
  | jsonOnly
deriving DecidableEq, Repr

/-- Configured retry count of the validation wrapper: one retry in the
stricter JSON-only mode (phase3 spec). -/
def retryCount : Nat := 1

/-- Schema validation of a raw opinion for a persona and criterion:
correct persona tag, correct criterion id, score within 1..5. -/
def validOpinion (p : Persona) (c : Criterion) (op : JudicialOpinion) : Bool :=
  op.judge == p && op.criterion_id == c.id && decide (1 ≤ op.score) &&
    decide (op.score ≤ 5)

/-- Typed placeholder opinion substituted after retries are exhausted:
fixed neutral score 3, argument explaining the failure, empty
citations (tasks.md T003). -/
def placeholderOpinion (p : Persona) (c : Criterion) (msg : String) :
    JudicialOpinion :=
  { judge := p
    criterion_id := c.id
    score := 3
    argument := "Parse/LLM error after retries: " ++ msg
    cited_evidence := [] }

/-- Retry step of the validation wrapper: one JSON-only attempt, then
the typed placeholder. The second component counts invocations made in
total by the wrapper (this step is invocation number 2). -/
def retryInvoke (p : Persona) (c : Criterion)
    (call : InvokeMode → Option JudicialOpinion) : JudicialOpinion × Nat :=
  match call InvokeMode.jsonOnly with
  | some op =>
    if validOpinion p c op then (op, 2)
    else (placeholderOpinion p c "schema validation failed", 2)
  | none => (placeholderOpinion p c "invocation failed", 2)

/-- Modelled from the spec: the structured-output wrapper of the missing
src/nodes/judges.py. A call returns none on a call-level error and some
raw opinion otherwise; the wrapper validates, retries once in JSON-only
mode, and substitutes the typed placeholder instead of raising. Returns
the opinion together with the number of invocations made. -/
def invokeValidated (p : Persona) (c : Criterion)
    (call : InvokeMode → Option JudicialOpinion) : JudicialOpinion × Nat :=
  match call InvokeMode.structured with
  | some op => if validOpinion p c op then (op, 1) else retryInvoke p c call
  | none => retryInvoke p c call

/-- Modelled from the spec: the evaluator panel for one criterion runs
the three personas (each through the validation wrapper) and collects
their opinions; calls gives each persona its underlying judgment call. -/
def runPanel (c : Criterion)
    (calls : Persona → InvokeMode → Option JudicialOpinion) :
    List JudicialOpinion :=
  [Persona.prosecutor, Persona.defense, Persona.techLead].map
    (fun p => (invokeValidated p c (calls p)).1)

/-! ## Shared state and reducers (claim C3)

The reducers are declared in the README final-submission table and
data-model.md section 4: `evidences` carries reducer operator.ior
(Python in-place dict union: on a key present in both operands the
update operand wins) and `opinions` carries reducer operator.add (list
concatenation). src/state.py itself is missing from the tree; the
definitions below embed the Python semantics of the two declared
operators. -/

/-- Graph state fields with declared merge policies (AgentState in
data-model.md section 4, restricted to the concurrently-written
fields). -/
structure AgentState where
  evidences : EvMap
  opinions : List JudicialOpinion
deriving DecidableEq, Repr

/-- Partial result returned by one node: the keys it produced and the
opinions it appended. -/
structure NodeUpdate where
  evidences : EvMap
  opinions : List JudicialOpinion
deriving DecidableEq, Repr

/-- Python operator.ior on dicts, embedded on association lists: every
key of the current map keeps its position, its value replaced when the
update also carries the key; keys only in the update are appended in
order. On a conflicting key the update wins. -/
def iorReduce (m u : EvMap) : EvMap :=
  (m.map (fun e =>
    match lookupEv u e.1 with
    | some w => (e.1, w)
    | none => e)) ++
    u.filter (fun e => (lookupEv m e.1).isNone)

/-- Python operator.add on lists: concatenation. -/
def addReduce (a b : List JudicialOpinion) : List JudicialOpinion := a ++ b

/-- Apply one partial node result to the state using the declared
per-field reducers. -/
def applyUpdate (s : AgentState) (u : NodeUpdate) : AgentState :=
  { evidences := iorReduce s.evidences u.evidences
    opinions := addReduce s.opinions u.opinions }

/-- Merge the partial results of a set of parallel branches in their
completion order. -/
def mergeUpdates (init : AgentState) (us : List NodeUpdate) : AgentState :=
  us.foldl applyUpdate init

/-- Claim C3 as stated: the final merged state is literally the same for
every permutation of the completion order of the parallel branches. -/
def mergeOrderIndependent : Prop :=
  ∀ (init : AgentState) (us vs : List NodeUpdate),
    us.Perm vs → mergeUpdates init us = mergeUpdates init vs

/-- Two partial results own disjoint evidence keys: no key of the first
resolves in the second. -/
def disjointKeys (m u : EvMap) : Bool :=
  m.all (fun e => (lookupEv u e.1).isNone)

/-- First-some choice on options (Python: the left operand wins). -/
def oor : Option (List Evidence) → Option (List Evidence) →
    Option (List Evidence)
  | some x, _ => some x
  | none, b => b

/-! ## Helper lemmas -/

theorem mem_insertSorted {x a : Nat} {l : List Nat} :
    x ∈ insertSorted a l ↔ x = a ∨ x ∈ l := by
  induction l with
  | nil => simp [insertSorted]
  | cons y ys ih =>
    unfold insertSorted
    by_cases h : a ≤ y
    · simp [h]
    · simp [h, ih]
      tauto

theorem mem_sortScores {x : Nat} {l : List Nat} :
    x ∈ sortScores l ↔ x ∈ l := by
  induction l with
  | nil => simp [sortScores]
  | cons y ys ih =>
    show x ∈ insertSorted y (sortScores ys) ↔ _
    rw [mem_insertSorted, ih]
    simp

theorem length_insertSorted (a : Nat) (l : List Nat) :
    (insertSorted a l).length = l.length + 1 := by
  induction l with
  | nil => rfl
  | cons y ys ih =>
    unfold insertSorted
    by_cases h : a ≤ y
    · simp [h]
    · simp [h, ih]

theorem length_sortScores (l : List Nat) :
    (sortScores l).length = l.length := by
  induction l with
  | nil => rfl
  | cons y ys ih =>
    show (insertSorted y (sortScores ys)).length = _
    rw [length_insertSorted, ih]
    rfl

theorem getD_mem {l : List Nat} {i : Nat} {d : Nat} (h : i < l.length) :
    l.getD i d ∈ l := by
  induction l generalizing i with
  | nil => simp at h
  | cons y ys ih =>
    cases i with
    | zero => simp [List.getD]
    | succ j =>
      have hj : j < ys.length := by simpa using h
      simp only [List.getD_cons_succ]
      exact List.mem_cons_of_mem _ (ih hj)

theorem roundedMedian_bounds (l : List Nat) (hne : l ≠ [])
    (h : ∀ x ∈ l, 1 ≤ x ∧ x ≤ 5) :
    1 ≤ roundedMedian l ∧ roundedMedian l ≤ 5 := by
  unfold roundedMedian
  have hlen : (sortScores l).length = l.length := length_sortScores l
  have hnz : (sortScores l).length ≠ 0 := by
    rw [hlen]
    have := List.length_pos.mpr hne
    omega
  have hbound : ∀ i, i < (sortScores l).length →
      1 ≤ (sortScores l).getD i 3 ∧ (sortScores l).getD i 3 ≤ 5 := by
    intro i hi
    exact h _ (mem_sortScores.mp (getD_mem hi))
  simp only [if_neg hnz]
  by_cases hpar : (sortScores l).length % 2 = 1
  · rw [if_pos hpar]
    exact hbound _ (Nat.div_lt_self (Nat.pos_of_ne_zero hnz) one_lt_two)
  · rw [if_neg hpar]
    have h2 : 2 ≤ (sortScores l).length := by omega
    have hb1 := hbound ((sortScores l).length / 2 - 1) (by omega)
    have hb2 := hbound ((sortScores l).length / 2)
      (Nat.div_lt_self (Nat.pos_of_ne_zero hnz) one_lt_two)
    omega

theorem invokeValidated_tags (p : Persona) (c : Criterion)
    (call : InvokeMode → Option JudicialOpinion) :
    (invokeValidated p c call).1.judge = p ∧
      (invokeValidated p c call).1.criterion_id = c.id := by
  have hretry : (retryInvoke p c call).1.judge = p ∧
      (retryInvoke p c call).1.criterion_id = c.id := by
    unfold retryInvoke
    cases h2 : call InvokeMode.jsonOnly with
    | none => exact ⟨rfl, rfl⟩
    | some op =>
      by_cases hv : validOpinion p c op
      · have := hv
        unfold validOpinion at this
        simp only [Bool.and_eq_true, beq_iff_eq, decide_eq_true_eq] at this
        simp [hv]
        exact ⟨this.1.1.1, this.1.1.2⟩
      · simp [hv]
        exact ⟨rfl, rfl⟩
  unfold invokeValidated
  cases h1 : call InvokeMode.structured with
  | none => exact hretry
  | some op =>
    by_cases hv : validOpinion p c op
    · have := hv
      unfold validOpinion at this
      simp only [Bool.and_eq_true, beq_iff_eq, decide_eq_true_eq] at this
      simp [hv]
      exact ⟨this.1.1.1, this.1.1.2⟩
    · simp [hv]
      exact hretry

/-! ## Claim theorems -/

/-- C10: runs differing only in OLLAMA_MODEL and OLLAMA_VISION_MODEL
invoke the same hardcoded model llama3.2:3b in the judge and vision
nodes; the README-documented configuration (OLLAMA_MODEL, default
qwen2.5:7b) does not describe the actual behavior. -/
theorem C10_model_env_independent (e1 e2 : OllamaEnv) :
    judgeModelName e1 = judgeModelName e2 ∧
    visionModelName e1 = visionModelName e2 ∧
    judgeModelName e1 = "llama3.2:3b" ∧
    visionModelName e1 = "llama3.2:3b" ∧
    readmeDocumentedModel
      { ollamaModel := none, ollamaVisionModel := none,
        ollamaBaseUrl := none } ≠ judgeModelName e1 := by
  refine ⟨rfl, rfl, rfl, rfl, ?_⟩
  exact (by decide : ("qwen2.5:7b" : String) ≠ "llama3.2:3b")

/-- C8: a run submission with no subject input (URL empty after
trimming) fails fast in runAudit with a validation error and never
issues the request that starts the Graph Engine; moreover every request
runAudit does issue carries a non-empty repo_url or a non-empty
pdf_path, so no report-producing run ever starts without a subject. -/
theorem C8_empty_subject_fails_fast :
    (∀ (mode : AuditMode) (url : String) (rubric : Option (List RubricDim)),
      (jsTrim url).isEmpty = true →
      runAudit mode url rubric =
        RunOutcome.validationError "Enter a Repo URL or Doc URL.") ∧
    (∀ (mode : AuditMode) (url : String) (rubric : Option (List RubricDim))
      (req : RunRequest), runAudit mode url rubric = RunOutcome.request req →
      req.repo_url.isEmpty = false ∨ req.pdf_path.isEmpty = false) := by
  constructor
  · intro mode url rubric h
    simp [runAudit, h]
  · intro mode url rubric req h
    unfold runAudit at h
    by_cases he : (jsTrim url).isEmpty
    · simp [he] at h
    · simp only [Bool.not_eq_true] at he
      rw [if_neg (by simp [he])] at h
      cases rubric with
      | none => simp at h
      | some dims =>
        by_cases hd : dims.isEmpty
        · simp [hd] at h
        · simp only [hd, if_neg, Bool.false_eq_true, not_false_eq_true,
            if_false] at h
          cases h
          cases mode with
          | repo => exact Or.inl (by simp [he])
          | doc => exact Or.inr (by simp [he])

/-- C8 witness: with no URL supplied, runAudit returns the validation
error and no request is issued. -/
theorem C8_witness :
    runAudit AuditMode.repo ""
      (some [RubricDim.mk (some "git_forensic_analysis") none
        (some "github_repo")]) =
      RunOutcome.validationError "Enter a Repo URL or Doc URL." :=
  C8_empty_subject_fails_fast.1 AuditMode.repo "" _ (by decide)

/-- C4 counterexample: on the declared wiring, a run whose aggregator
routing selects skip (no evidence collected) still dispatches the
prosecutor and tech-lead evaluator nodes through the unconditional
direct edges, so the claim that no evaluator node runs is false. -/
theorem C4_counterexample :
    aggregatorRoute [] = AggRoute.skip ∧
    GraphNode.prosecutor ∈ evaluatorsInvoked (aggregatorRoute []) ∧
    GraphNode.techLead ∈ evaluatorsInvoked (aggregatorRoute []) ∧
    evaluatorsInvoked (aggregatorRoute []) ≠ [] := by
  decide

/-- C4 amended: when no evidence was collected the aggregator routing
selects skip, which bypasses only the defense evaluator (the sole
target of the conditional edge); prosecutor and tech lead are still
dispatched through their unconditional direct edges. -/
theorem C4_amended_skip_bypasses_only_defense (ev : EvMap)
    (h : noEvidence ev = true) :
    GraphNode.defense ∉ aggregatorSuccessors (aggregatorRoute ev) ∧
    GraphNode.prosecutor ∈ aggregatorSuccessors (aggregatorRoute ev) ∧
    GraphNode.techLead ∈ aggregatorSuccessors (aggregatorRoute ev) := by
  have hr : aggregatorRoute ev = AggRoute.skip := by
    simp [aggregatorRoute, h]
  rw [hr]
  decide

/-- C4 witness: the amended statement at the empty evidence map. -/
theorem C4_amended_witness :
    GraphNode.defense ∉ aggregatorSuccessors (aggregatorRoute []) ∧
    GraphNode.prosecutor ∈ aggregatorSuccessors (aggregatorRoute []) ∧
    GraphNode.techLead ∈ aggregatorSuccessors (aggregatorRoute []) :=
  C4_amended_skip_bypasses_only_defense [] (by decide)

/-- C1 counterexample: a panel with scores 3, 4, 5 (spread 2, not
greater than 2) and no overriding rule firing still receives a dissent
summary, matching the Safe Tool Engineering row of the rendered audit
report; so the claim that dissent_summary is never set with spread at
most 2 is false as stated. -/
theorem C1_counterexample :
    scoreSpread
      (([JudicialOpinion.mk Persona.prosecutor "safe_tool_engineering" 3
          "sandboxing gaps" [],
         JudicialOpinion.mk Persona.defense "safe_tool_engineering" 4
          "good practice" [],
         JudicialOpinion.mk Persona.techLead "safe_tool_engineering" 5
          "sandboxed clone" []]).map (fun o => o.score)) = 2 ∧
    ¬ 2 < scoreSpread
      (([JudicialOpinion.mk Persona.prosecutor "safe_tool_engineering" 3
          "sandboxing gaps" [],
         JudicialOpinion.mk Persona.defense "safe_tool_engineering" 4
          "good practice" [],
         JudicialOpinion.mk Persona.techLead "safe_tool_engineering" 5
          "sandboxed clone" []]).map (fun o => o.score)) ∧
    ((synthesize
      (Criterion.mk "safe_tool_engineering" "Safe Tool Engineering")
      [JudicialOpinion.mk Persona.prosecutor "safe_tool_engineering" 3
        "sandboxing gaps" [],
       JudicialOpinion.mk Persona.defense "safe_tool_engineering" 4
        "good practice" [],
       JudicialOpinion.mk Persona.techLead "safe_tool_engineering" 5
        "sandboxed clone" []] []).dissent_summary).isSome = true := by
  decide

/-- C1 amended: when the spread of the raw opinion scores is strictly
greater than 2, the synthesized result always carries a dissent
summary (the direction the repository declares); the converse fails,
because the engine also sets the summary below the threshold when a
synthesis rule fired or the judges merely disagree. -/
theorem C1_amended_spread_sets_dissent (c : Criterion)
    (ops : List JudicialOpinion) (ev : EvMap)
    (h : 2 < scoreSpread (ops.map (fun o => o.score))) :
    ((synthesize c ops ev).dissent_summary).isSome = true := by
  simp [synthesize, dissentSummary, h]

/-- C1 witness: scenario B of the spec, scores 1, 5, 5 (spread 4);
the dissent summary is set. -/
theorem C1_amended_witness :
    ((synthesize
      (Criterion.mk "git_forensic_analysis" "Git Forensic Analysis")
      [JudicialOpinion.mk Persona.prosecutor "git_forensic_analysis" 1
        "bulk upload" [],
       JudicialOpinion.mk Persona.defense "git_forensic_analysis" 5
        "effort" [],
       JudicialOpinion.mk Persona.techLead "git_forensic_analysis" 5
        "works" []] []).dissent_summary).isSome = true :=
  C1_amended_spread_sets_dissent _ _ _ (by decide)

/-- C2: if any prosecutor opinion cites evidence of a confirmed security
defect, the synthesized final score is at most 3, for all scores of the
other opinions (the security override has highest priority). -/
theorem C2_security_override_caps (c : Criterion) (ops : List JudicialOpinion)
    (ev : EvMap) (op : JudicialOpinion) (hmem : op ∈ ops)
    (hjudge : op.judge = Persona.prosecutor)
    (hcites : citesConfirmedSecurityDefect ev op = true) :
    (synthesize c ops ev).final_score ≤ 3 := by
  have hsec : securityOverrideApplies ev ops = true := by
    unfold securityOverrideApplies
    rw [List.any_eq_true]
    exact ⟨op, hmem, by simp [hjudge, hcites]⟩
  simp only [synthesize, hsec, if_true]
  exact Nat.min_le_right _ _

/-- C2 witness: a concrete panel in which the prosecutor cites a found
security-goal Evidence item while defense and tech lead score 5; the
final score is capped at 3. -/
theorem C2_witness :
    (synthesize (Criterion.mk "safe_tool_engineering" "Safe Tool Engineering")
      [JudicialOpinion.mk Persona.prosecutor "safe_tool_engineering" 2
        "os.system with unsanitized input" ["clone.py"],
       JudicialOpinion.mk Persona.defense "safe_tool_engineering" 5
        "effort" [],
       JudicialOpinion.mk Persona.techLead "safe_tool_engineering" 5
        "works" []]
      [("safe_tool_engineering",
        [Evidence.mk "safe_tool_engineering" true none "clone.py"
          "raw shell call" 1])]).final_score ≤ 3 :=
  C2_security_override_caps _ _ _
    (JudicialOpinion.mk Persona.prosecutor "safe_tool_engineering" 2
      "os.system with unsanitized input" ["clone.py"])
    (by decide) rfl (by decide)

/-- C5: when none of the security-override, evidence-supremacy and
functionality-weighting rules matches, the synthesized final score is
the rounded median of the raw opinion scores, and it lies in [1,5]
whenever the opinions carry schema-valid scores. -/
theorem C5_default_median (c : Criterion) (ops : List JudicialOpinion)
    (ev : EvMap) (hne : ops ≠ [])
    (hrange : ∀ op ∈ ops, 1 ≤ op.score ∧ op.score ≤ 5)
    (hsec : securityOverrideApplies ev ops = false)
    (hcon : ∀ op ∈ ops, contradictedByEvidence ev op = false)
    (hfun : functionalityApplies c ev ops = false) :
    (synthesize c ops ev).final_score =
      roundedMedian (ops.map (fun o => o.score)) ∧
    1 ≤ (synthesize c ops ev).final_score ∧
    (synthesize c ops ev).final_score ≤ 5 := by
  have hadj : ops.map (adjustedScore ev) = ops.map (fun o => o.score) :=
    List.map_congr_left (fun op hop => by simp [adjustedScore, hcon op hop])
  have hfs : (synthesize c ops ev).final_score =
      roundedMedian (ops.map (fun o => o.score)) := by
    simp [synthesize, hsec, hfun, hadj]
  refine ⟨hfs, ?_, ?_⟩ <;> rw [hfs]
  · exact (roundedMedian_bounds _ (by simpa using hne)
      (by simpa using fun op hop => hrange op hop)).1
  · exact (roundedMedian_bounds _ (by simpa using hne)
      (by simpa using fun op hop => hrange op hop)).2

/-- C5 witness: scenario A of the spec, scores 2, 4, 4 with no rule
matching; the final score is the median 4 and lies in [1,5]. -/
theorem C5_witness :
    (synthesize (Criterion.mk "git_forensic_analysis" "Git Forensic Analysis")
      [JudicialOpinion.mk Persona.prosecutor "git_forensic_analysis" 2
        "vague messages" [],
       JudicialOpinion.mk Persona.defense "git_forensic_analysis" 4
        "iterative history" [],
       JudicialOpinion.mk Persona.techLead "git_forensic_analysis" 4
        "clean progression" []] []).final_score =
      roundedMedian [2, 4, 4] ∧
    1 ≤ (synthesize (Criterion.mk "git_forensic_analysis"
      "Git Forensic Analysis")
      [JudicialOpinion.mk Persona.prosecutor "git_forensic_analysis" 2
        "vague messages" [],
       JudicialOpinion.mk Persona.defense "git_forensic_analysis" 4
        "iterative history" [],
       JudicialOpinion.mk Persona.techLead "git_forensic_analysis" 4
        "clean progression" []] []).final_score ∧
    (synthesize (Criterion.mk "git_forensic_analysis" "Git Forensic Analysis")
      [JudicialOpinion.mk Persona.prosecutor "git_forensic_analysis" 2
        "vague messages" [],
       JudicialOpinion.mk Persona.defense "git_forensic_analysis" 4
        "iterative history" [],
       JudicialOpinion.mk Persona.techLead "git_forensic_analysis" 4
        "clean progression" []] []).final_score ≤ 5 :=
  C5_default_median _ _ _ (by decide) (by decide) (by decide)
    (by decide) (by decide)

/-- C6: for a judgment call whose output persistently fails schema
validation, the validation wrapper terminates after exactly one primary
attempt plus the configured retry count and returns the typed
placeholder opinion: neutral score 3 (within [1,5]), correctly tagged
persona and criterion, empty citations, instead of raising. -/
theorem C6_validator_placeholder (p : Persona) (c : Criterion)
    (call : InvokeMode → Option JudicialOpinion)
    (h : ∀ m op, call m = some op → validOpinion p c op = false) :
    (invokeValidated p c call).2 = 1 + retryCount ∧
    (invokeValidated p c call).1.score = 3 ∧
    1 ≤ (invokeValidated p c call).1.score ∧
    (invokeValidated p c call).1.score ≤ 5 ∧
    (invokeValidated p c call).1.judge = p ∧
    (invokeValidated p c call).1.criterion_id = c.id ∧
    (invokeValidated p c call).1.cited_evidence = [] := by
  have hretry : (retryInvoke p c call).2 = 2 ∧
      (retryInvoke p c call).1.score = 3 ∧
      (retryInvoke p c call).1.judge = p ∧
      (retryInvoke p c call).1.criterion_id = c.id ∧
      (retryInvoke p c call).1.cited_evidence = [] := by
    unfold retryInvoke
    cases h2 : call InvokeMode.jsonOnly with
    | none => simp [placeholderOpinion]
    | some op => simp [h _ _ h2, placeholderOpinion]
  unfold invokeValidated
  cases h1 : call InvokeMode.structured with
  | none =>
    simp only [retryCount]
    exact ⟨hretry.1, hretry.2.1, by omega, by omega, hretry.2.2.1,
      hretry.2.2.2.1, hretry.2.2.2.2⟩
  | some rawOp =>
    simp only [h _ _ h1, Bool.false_eq_true, if_false, retryCount]
    exact ⟨hretry.1, hretry.2.1, by omega, by omega, hretry.2.2.1,
      hretry.2.2.2.1, hretry.2.2.2.2⟩

/-- C6 witness: a stub that always fails at the call level; the wrapper
makes exactly two invocations and returns the tagged placeholder. -/
theorem C6_witness :
    (invokeValidated Persona.techLead
      (Criterion.mk "git_forensic_analysis" "Git Forensic Analysis")
      (fun _ => none)).2 = 1 + retryCount ∧
    (invokeValidated Persona.techLead
      (Criterion.mk "git_forensic_analysis" "Git Forensic Analysis")
      (fun _ => none)).1.score = 3 ∧
    1 ≤ (invokeValidated Persona.techLead
      (Criterion.mk "git_forensic_analysis" "Git Forensic Analysis")
      (fun _ => none)).1.score ∧
    (invokeValidated Persona.techLead
      (Criterion.mk "git_forensic_analysis" "Git Forensic Analysis")
      (fun _ => none)).1.score ≤ 5 ∧
    (invokeValidated Persona.techLead
      (Criterion.mk "git_forensic_analysis" "Git Forensic Analysis")
      (fun _ => none)).1.judge = Persona.techLead ∧
    (invokeValidated Persona.techLead
      (Criterion.mk "git_forensic_analysis" "Git Forensic Analysis")
      (fun _ => none)).1.criterion_id = "git_forensic_analysis" ∧
    (invokeValidated Persona.techLead
      (Criterion.mk "git_forensic_analysis" "Git Forensic Analysis")
      (fun _ => none)).1.cited_evidence = [] :=
  C6_validator_placeholder Persona.techLead
    (Criterion.mk "git_forensic_analysis" "Git Forensic Analysis")
    (fun _ => none) (fun _ op hmo => Option.noConfusion hmo)

/-- C7: for every criterion run through the evaluator panel and every
persona, exactly one opinion tagged with that persona and criterion is
produced, whatever the underlying calls return (including failures). -/
theorem C7_exactly_one_opinion (c : Criterion)
    (calls : Persona → InvokeMode → Option JudicialOpinion) (p : Persona) :
    ((runPanel c calls).countP
      (fun op => op.judge == p && op.criterion_id == c.id)) = 1 := by
  have h1 := invokeValidated_tags Persona.prosecutor c (calls .prosecutor)
  have h2 := invokeValidated_tags Persona.defense c (calls .defense)
  have h3 := invokeValidated_tags Persona.techLead c (calls .techLead)
  unfold runPanel
  simp only [List.map_cons, List.map_nil, List.countP_cons, List.countP_nil,
    h1.1, h1.2, h2.1, h2.2, h3.1, h3.2]
  cases p <;> simp

/-- Membership in repoIds characterizes non-empty ids tagged
github_repo. -/
theorem mem_repoIds {rubric : List RubricDim} {k : String} :
    k ∈ repoIds rubric ↔ taggedRepoNE rubric k := by
  simp only [repoIds, List.mem_filter, List.mem_filterMap,
    Bool.not_eq_true', beq_eq_false_iff_ne, ne_eq, taggedRepoNE, taggedRepo,
    beq_iff_eq]
  constructor
  · rintro ⟨⟨d, ⟨hd, ht⟩, hid⟩, hk⟩
    exact ⟨hk, d, hd, hid, ht⟩
  · rintro ⟨hk, d, hd, hid, ht⟩
    exact ⟨⟨d, ⟨hd, ht⟩, hid⟩, hk⟩

/-- Membership in reportIds characterizes non-empty ids tagged
pdf_report or pdf_images. -/
theorem mem_reportIds {rubric : List RubricDim} {k : String} :
    k ∈ reportIds rubric ↔ taggedReportNE rubric k := by
  simp only [reportIds, List.mem_filter, List.mem_filterMap,
    Bool.not_eq_true', beq_eq_false_iff_ne, ne_eq, taggedReportNE,
    taggedReport, Bool.or_eq_true, beq_iff_eq]
  constructor
  · rintro ⟨⟨d, ⟨hd, ht⟩, hid⟩, hk⟩
    exact ⟨hk, d, hd, hid, ht⟩
  · rintro ⟨hk, d, hd, hid, ht⟩
    exact ⟨⟨d, ⟨hd, ht⟩, hid⟩, hk⟩

/-- C9 counterexample: with an evidence key that is the empty string and
a rubric dimension carrying that id with target_artifact github_repo,
the code drops the key from both outputs (JS .filter(Boolean) discards
the empty-string id), so the claim that a github_repo-tagged key lands
in the repo output is false as stated. -/
theorem C9_counterexample :
    ¬ splitPartitionClaim [("", [])]
      [RubricDim.mk (some "") none (some "github_repo")] := by
  intro h
  have hmem := h.2.1 ("", []) (by simp)
    ⟨RubricDim.mk (some "") none (some "github_repo"), by simp, rfl, rfl⟩
  have hempty : (splitEvidencesByArtifact [("", [])]
      [RubricDim.mk (some "") none (some "github_repo")]).1 = [] := by
    decide
  rw [hempty] at hmem
  simp at hmem

/-- C9 amended: splitEvidencesByArtifact partitions the evidence keys
whose rubric dimension id is a non-empty string: no key appears in both
outputs; a key tagged github_repo with a non-empty id lands in the repo
output; a key not repo-tagged but tagged pdf_report or pdf_images with
a non-empty id lands in the report output (repo takes precedence); and
a key tagged neither way is dropped from both outputs. -/
theorem C9_amended_partition (evidences : EvMap) (rubric : List RubricDim) :
    (∀ k, k ∈ (splitEvidencesByArtifact evidences rubric).1.map Prod.fst →
        k ∉ (splitEvidencesByArtifact evidences rubric).2.map Prod.fst) ∧
    (∀ e ∈ evidences, taggedRepoNE rubric e.1 →
        e ∈ (splitEvidencesByArtifact evidences rubric).1) ∧
    (∀ e ∈ evidences, ¬ taggedRepoNE rubric e.1 → taggedReportNE rubric e.1 →
        e ∈ (splitEvidencesByArtifact evidences rubric).2) ∧
    (∀ e ∈ evidences, ¬ taggedRepoNE rubric e.1 → ¬ taggedReportNE rubric e.1 →
        e ∉ (splitEvidencesByArtifact evidences rubric).1 ∧
          e ∉ (splitEvidencesByArtifact evidences rubric).2) := by
  refine ⟨?_, ?_, ?_, ?_⟩
  · intro k h1 h2
    simp only [splitEvidencesByArtifact, List.mem_map, List.mem_filter] at h1 h2
    obtain ⟨e1, ⟨_, hp1⟩, hk1⟩ := h1
    obtain ⟨e2, ⟨_, hp2⟩, hk2⟩ := h2
    rw [Bool.and_eq_true, Bool.not_eq_true'] at hp2
    rw [hk1] at hp1
    rw [hk2] at hp2
    rw [hp2.1] at hp1
    exact Bool.false_ne_true hp1
  · intro e he htag
    refine List.mem_filter.mpr ⟨he, ?_⟩
    exact List.elem_iff.mpr (mem_repoIds.mpr htag)
  · intro e he hnrepo hreport
    refine List.mem_filter.mpr ⟨he, ?_⟩
    rw [Bool.and_eq_true, Bool.not_eq_true']
    refine ⟨?_, List.elem_iff.mpr (mem_reportIds.mpr hreport)⟩
    by_cases hc : (repoIds rubric).contains e.1 = true
    · exact absurd (mem_repoIds.mp (List.elem_iff.mp hc)) hnrepo
    · simpa using hc
  · intro e he hnrepo hnreport
    constructor
    · intro hmem
      have := (List.mem_filter.mp hmem).2
      exact hnrepo (mem_repoIds.mp (List.elem_iff.mp this))
    · intro hmem
      have := (List.mem_filter.mp hmem).2
      rw [Bool.and_eq_true] at this
      exact hnreport (mem_reportIds.mp (List.elem_iff.mp this.2))

/-- C9 witness: a concrete split in which a repo-tagged key lands in the
repo output, exercising the amended partition theorem. -/
theorem C9_witness :
    ("git_forensic_analysis", ([] : List Evidence)) ∈
      (splitEvidencesByArtifact
        [("git_forensic_analysis", []), ("theoretical_depth", [])]
        [RubricDim.mk (some "git_forensic_analysis") none
          (some "github_repo"),
         RubricDim.mk (some "theoretical_depth") none
          (some "pdf_report")]).1 :=
  (C9_amended_partition _ _).2.1 ("git_forensic_analysis", []) (by simp)
    ⟨by decide, RubricDim.mk (some "git_forensic_analysis") none
      (some "github_repo"), by simp, rfl, rfl⟩

/-- Lookup distributes over append: the first map wins. -/
theorem lookupEv_append (a b : EvMap) (k : String) :
    lookupEv (a ++ b) k = oor (lookupEv a k) (lookupEv b k) := by
  induction a with
  | nil => simp [lookupEv, oor]
  | cons e m ih =>
    simp only [List.cons_append, lookupEv]
    by_cases h : e.1 = k
    · simp [h, oor]
    · simp [h, ih]

/-- Lookup after the value-substitution pass of iorReduce. -/
theorem lookupEv_mapSubst (m u : EvMap) (k : String) :
    lookupEv (m.map (fun e =>
      match lookupEv u e.1 with
      | some w => (e.1, w)
      | none => e)) k =
    match lookupEv m k with
    | some v => some ((lookupEv u k).getD v)
    | none => none := by
  induction m with
  | nil => simp [lookupEv]
  | cons e m ih =>
    simp only [List.map_cons]
    by_cases h : e.1 = k
    · subst h
      cases hu : lookupEv u e.1 <;> simp [lookupEv, hu]
    · cases hu : lookupEv u e.1 <;> simp [lookupEv, h, ih]

/-- Lookup in the new-keys pass of iorReduce. -/
theorem lookupEv_filterNone (m u : EvMap) (k : String) :
    lookupEv (u.filter (fun e => (lookupEv m e.1).isNone)) k =
    if (lookupEv m k).isNone then lookupEv u k else none := by
  induction u with
  | nil => simp [lookupEv]
  | cons e u ih =>
    simp only [List.filter_cons]
    by_cases hp : (lookupEv m e.1).isNone
    · rw [if_pos (by simpa using hp)]
      by_cases h : e.1 = k
      · subst h
        simp [lookupEv, hp]
      · simp [lookupEv, h, ih]
    · rw [if_neg (by simpa using hp)]
      by_cases h : e.1 = k
      · subst h
        rw [ih, if_neg hp, if_neg hp]
      · rw [ih]
        by_cases hm : (lookupEv m k).isNone
        · rw [if_pos hm, if_pos hm]
          simp [lookupEv, h]
        · rw [if_neg hm, if_neg hm]

/-- Lookup through the Python dict union: on each key the update
operand wins, falling back to the current map. -/
theorem lookup_iorReduce (m u : EvMap) (k : String) :
    lookupEv (iorReduce m u) k = oor (lookupEv u k) (lookupEv m k) := by
  unfold iorReduce
  rw [lookupEv_append, lookupEv_mapSubst, lookupEv_filterNone]
  cases hm : lookupEv m k <;> cases hu : lookupEv u k <;>
    simp [oor, Option.getD]

/-- The evidences field of a merged run is the fold of the evidences
reducer over the partial results. -/
theorem evidences_mergeUpdates (init : AgentState) (us : List NodeUpdate) :
    (mergeUpdates init us).evidences =
      us.foldl (fun m p => iorReduce m p.evidences) init.evidences := by
  induction us generalizing init with
  | nil => rfl
  | cons p ps ih =>
    show (mergeUpdates (applyUpdate init p) ps).evidences = _
    rw [ih]
    rfl

/-- The opinions field of a merged run is the initial list followed by
the concatenation of the partial opinion lists in completion order. -/
theorem opinions_mergeUpdates (init : AgentState) (us : List NodeUpdate) :
    (mergeUpdates init us).opinions =
      init.opinions ++ (us.map (fun p => p.opinions)).flatten := by
  induction us generalizing init with
  | nil => simp [mergeUpdates]
  | cons p ps ih =>
    show (mergeUpdates (applyUpdate init p) ps).opinions = _
    rw [ih]
    simp [applyUpdate, addReduce]

/-- Lookup through a fold of dict unions, expressed as a fold of
first-some choices with the later update winning. -/
theorem lookup_merge_foldl (base : EvMap) (us : List NodeUpdate)
    (k : String) :
    lookupEv (us.foldl (fun m p => iorReduce m p.evidences) base) k =
      us.foldl (fun acc p => oor (lookupEv p.evidences k) acc)
        (lookupEv base k) := by
  induction us generalizing base with
  | nil => rfl
  | cons p ps ih =>
    simp only [List.foldl_cons]
    rw [ih, lookup_iorReduce]

/-- A fold of first-some choices equals the last produced value, with
the base as fallback. -/
theorem foldl_oor_getLast (g : NodeUpdate → Option (List Evidence))
    (d : Option (List Evidence)) (us : List NodeUpdate) :
    us.foldl (fun acc p => oor (g p) acc) d =
      oor (us.filterMap g).getLast? d := by
  induction us generalizing d with
  | nil => simp [oor]
  | cons p ps ih =>
    simp only [List.foldl_cons, List.filterMap_cons]
    cases hg : g p with
    | none =>
      rw [ih]
      rfl
    | some v =>
      rw [ih]
      cases hl : ps.filterMap g with
      | nil => simp [oor]
      | cons w ws =>
        rw [List.getLast?_cons_cons]
        cases hg2 : (w :: ws).getLast? with
        | none => simp at hg2
        | some z => simp [oor]

/-- Under pairwise at-most-one-producer, the filterMap has at most one
element. -/
theorem filterMap_length_le_one {g : NodeUpdate → Option (List Evidence)}
    {us : List NodeUpdate}
    (h : us.Pairwise (fun p q => ¬((g p).isSome = true ∧ (g q).isSome = true))) :
    (us.filterMap g).length ≤ 1 := by
  induction us with
  | nil => simp
  | cons p ps ih =>
    rw [List.pairwise_cons] at h
    rw [List.filterMap_cons]
    cases hg : g p with
    | none => exact ih h.2
    | some v =>
      have hall : ∀ q ∈ ps, g q = none := by
        intro q hq
        cases hgq : g q with
        | none => rfl
        | some w => exact absurd (by simp [hg, hgq]) (h.1 q hq)
      rw [List.filterMap_eq_nil_iff.mpr hall]
      simp

/-- A successful lookup means some entry carries the key. -/
theorem lookup_isSome_key_mem {m : EvMap} {k : String}
    (h : (lookupEv m k).isSome = true) : ∃ e ∈ m, e.1 = k := by
  induction m with
  | nil => simp [lookupEv] at h
  | cons e m ih =>
    unfold lookupEv at h
    by_cases he : e.1 = k
    · exact ⟨e, List.mem_cons_self e m, he⟩
    · rw [if_neg he] at h
      obtain ⟨f, hf, hfk⟩ := ih h
      exact ⟨f, List.mem_cons_of_mem _ hf, hfk⟩

/-- Disjoint key ownership means no key resolves in both partial maps. -/
theorem disjointKeys_not_both {m u : EvMap} (hd : disjointKeys m u = true)
    (k : String) :
    ¬((lookupEv m k).isSome = true ∧ (lookupEv u k).isSome = true) := by
  rintro ⟨h1, h2⟩
  obtain ⟨e, he, hek⟩ := lookup_isSome_key_mem h1
  unfold disjointKeys at hd
  rw [List.all_eq_true] at hd
  have hn := hd e he
  simp only [hek, Option.isNone_iff_eq_none] at hn
  rw [hn] at h2
  simp at h2

/-- A permutation of a list with at most one element is an equality. -/
theorem perm_eq_of_length_le_one {α : Type} {l1 l2 : List α}
    (h : l1.Perm l2) (hl : l1.length ≤ 1) : l1 = l2 := by
  match l1, hl with
  | [], _ => exact (List.Perm.eq_nil h.symm).symm
  | [a], _ => exact (List.Perm.eq_singleton h.symm).symm
  | a :: b :: t, hl => simp at hl

/-- C3 counterexample: with two parallel branches each appending one
opinion, the two completion orders concatenate the opinions list in
different orders, so the merged states are not literally equal and the
order-independence claim is false as stated. -/
theorem C3_counterexample : ¬ mergeOrderIndependent := by
  intro h
  have heq := h (AgentState.mk [] [])
    [NodeUpdate.mk [] [JudicialOpinion.mk Persona.prosecutor
      "git_forensic_analysis" 2 "vague" []],
     NodeUpdate.mk [] [JudicialOpinion.mk Persona.defense
      "git_forensic_analysis" 4 "iterative" []]]
    [NodeUpdate.mk [] [JudicialOpinion.mk Persona.defense
      "git_forensic_analysis" 4 "iterative" []],
     NodeUpdate.mk [] [JudicialOpinion.mk Persona.prosecutor
      "git_forensic_analysis" 2 "vague" []]]
    (by decide)
  exact absurd heq (by decide)

/-- C3 amended: for partial results whose evidence keys are pairwise
disjoint (as the parallel collectors produce, each owning its keys),
the merged state is order independent up to representation: the merged
evidences map is lookup-equal (Python dict equality) for every
completion order, and the merged opinions list is the same multiset,
differing only in concatenation order because operator.add is
associative but not commutative. -/
theorem C3_amended_order_independent (init : AgentState)
    (us vs : List NodeUpdate) (hperm : us.Perm vs)
    (hdisj : us.Pairwise
      (fun p q => disjointKeys p.evidences q.evidences = true)) :
    (∀ k, lookupEv (mergeUpdates init us).evidences k =
        lookupEv (mergeUpdates init vs).evidences k) ∧
    (mergeUpdates init us).opinions.Perm (mergeUpdates init vs).opinions := by
  constructor
  · intro k
    rw [evidences_mergeUpdates, evidences_mergeUpdates,
      lookup_merge_foldl, lookup_merge_foldl,
      foldl_oor_getLast, foldl_oor_getLast]
    have hpw : us.Pairwise (fun p q =>
        ¬((lookupEv p.evidences k).isSome = true ∧
          (lookupEv q.evidences k).isSome = true)) :=
      hdisj.imp (fun hpq => disjointKeys_not_both hpq k)
    have hlen := filterMap_length_le_one hpw
    have hp2 := hperm.filterMap (fun p => lookupEv p.evidences k)
    rw [perm_eq_of_length_le_one hp2 hlen]
  · rw [opinions_mergeUpdates, opinions_mergeUpdates]
    exact List.Perm.append_left init.opinions
      ((hperm.map (fun p => p.opinions)).flatten)

/-- C3 witness: two collectors owning distinct keys merged in both
orders give lookup-equal evidence maps and permuted opinion lists. -/
theorem C3_amended_witness :
    (lookupEv (mergeUpdates (AgentState.mk [] [])
      [NodeUpdate.mk [("git_forensic_analysis",
          [Evidence.mk "git_forensic_analysis" true none "git log"
            "history" 1])] [],
       NodeUpdate.mk [("theoretical_depth",
          [Evidence.mk "theoretical_depth" false none "report.pdf"
            "missing" 1])] []]).evidences "git_forensic_analysis" =
     lookupEv (mergeUpdates (AgentState.mk [] [])
      [NodeUpdate.mk [("theoretical_depth",
          [Evidence.mk "theoretical_depth" false none "report.pdf"
            "missing" 1])] [],
       NodeUpdate.mk [("git_forensic_analysis",
          [Evidence.mk "git_forensic_analysis" true none "git log"
            "history" 1])] []]).evidences "git_forensic_analysis") ∧
    (mergeUpdates (AgentState.mk [] [])
      [NodeUpdate.mk [("git_forensic_analysis",
          [Evidence.mk "git_forensic_analysis" true none "git log"
            "history" 1])] [],
       NodeUpdate.mk [("theoretical_depth",
          [Evidence.mk "theoretical_depth" false none "report.pdf"
            "missing" 1])] []]).opinions.Perm
    (mergeUpdates (AgentState.mk [] [])
      [NodeUpdate.mk [("theoretical_depth",
          [Evidence.mk "theoretical_depth" false none "report.pdf"
            "missing" 1])] [],
       NodeUpdate.mk [("git_forensic_analysis",
          [Evidence.mk "git_forensic_analysis" true none "git log"
            "history" 1])] []]).opinions :=
  ⟨(C3_amended_order_independent (AgentState.mk [] []) _ _
      (by decide) (by decide)).1 "git_forensic_analysis",
   (C3_amended_order_independent (AgentState.mk [] []) _ _
      (by decide) (by decide)).2⟩
